import Mathlib

/-
  Verification of the webpackager repository against its natural-language
  specification.  The Go sources under consideration are shallowly embedded
  below: pure functions become Lean functions, fallible functions return
  Except or Option, and machine integers become Int/Nat.  Components whose
  implementation is not part of the provided sources (the WICG signedexchange
  library, the vprule/preverify/htmlproc/validity packages, Go standard
  library primitives) are modelled from the specification; each such
  definition carries a doc comment starting with "Modelled from the spec:".
-/

set_option maxHeartbeats 1000000

namespace WebPackager

/-- Splits a list into consecutive records of `n` elements each (the last
record may be shorter).  Models the record segmentation performed by the
Merkle Integrity content encoding. -/
def chunkList {α : Type} (n : Nat) (xs : List α) : List (List α) :=
  match xs with
  | [] => []
  | x :: rest =>
    if h : n = 0 then []
    else ((x :: rest).take n) :: chunkList n ((x :: rest).drop n)
termination_by xs.length
decreasing_by
  simp only [List.length_drop]
  exact Nat.sub_lt (List.length_pos.mpr (List.cons_ne_nil x rest))
    (Nat.pos_of_ne_zero h)

theorem chunkList_flatten {α : Type} (n : Nat) (hn : n ≠ 0) :
    ∀ (xs : List α), (chunkList n xs).flatten = xs := by
  have H : ∀ (k : Nat) (xs : List α), xs.length ≤ k →
      (chunkList n xs).flatten = xs := by
    intro k
    induction k with
    | zero =>
      intro xs h
      have hx : xs = [] := List.eq_nil_of_length_eq_zero (Nat.le_zero.mp h)
      subst hx
      rw [chunkList]
      rfl
    | succ k ih =>
      intro xs h
      match xs with
      | [] =>
        rw [chunkList]
        rfl
      | x :: rest =>
        rw [chunkList]
        simp only [hn, dite_false, List.flatten_cons]
        rw [ih ((x :: rest).drop n) ?hlen]
        · exact List.take_append_drop n (x :: rest)
        case hlen =>
          simp only [List.length_drop, List.length_cons]
          have h1 : 1 ≤ n := Nat.one_le_iff_ne_zero.mpr hn
          simp only [List.length_cons] at h
          omega
  intro xs
  exact H xs.length xs (Nat.le_refl _)

/-- Tests whether `pre` is a prefix of `l` (over characters); used to model
substring search from the Go standard library. -/
def prefixAt : List Char → List Char → Bool
  | [], _ => true
  | _ :: _, [] => false
  | a :: as, b :: bs => (a = b) && prefixAt as bs

/-- Tests whether `needle` occurs as a contiguous sublist of the second
argument.  Models strings.Contains from the Go standard library. -/
def containsSub (needle : List Char) : List Char → Bool
  | [] => prefixAt needle []
  | b :: bs => prefixAt needle (b :: bs) || containsSub needle bs

/-- Models strings.Contains: does `hay` contain `needle` as a substring? -/
def strContains (hay needle : String) : Bool :=
  containsSub needle.toList hay.toList

end WebPackager

namespace WebPackager.Exch

/-- A valid period is a pair of instants, in seconds: the signature date and
the expiry.  Mirrors exchange.ValidPeriod. -/
structure ValidPeriod where
  date : Int
  expires : Int
deriving DecidableEq

/-- Modelled from the spec: "ValidPeriod ... Constructed from (date,
lifetime)" — exchange.NewValidPeriodWithLifetime. -/
def NewValidPeriodWithLifetime (date : Int) (lifetime : Int) : ValidPeriod :=
  { date := date, expires := date + lifetime }

def ValidPeriod.Date (vp : ValidPeriod) : Int := vp.date

def ValidPeriod.Expires (vp : ValidPeriod) : Int := vp.expires

/-- The request half of a captured exchange: URL, method and headers. -/
structure Request where
  url : String
  method : String
  header : List (String × String)
deriving DecidableEq

/-- A captured upstream HTTP response, as consumed by the exchange factory.
Payload bytes are modelled as a list of naturals.  The two preload-header
fields model the Link headers accumulated by processors (SXG-bound preloads
and the remaining ones, kept or dropped by a toggle). -/
structure Response where
  request : Request
  statusCode : Nat
  header : List (String × String)
  sxgPreloadHeader : List (String × String)
  nonSXGPreloadHeader : List (String × String)
  payload : List Nat
deriving DecidableEq

/-- Modelled from the spec: Response.GetFullHeader returns the response
headers together with the preload Link headers; the toggle controls whether
non-SXG preload headers survive into the signed exchange. -/
def Response.GetFullHeader (resp : Response) (keepNonSXGPreloads : Bool) :
    List (String × String) :=
  resp.header ++ resp.sxgPreloadHeader ++
    (if keepNonSXGPreloads then resp.nonSXGPreloadHeader else [])

/-- An augmented certificate chain: abstract DER certificates plus the public
key of the leaf certificate, which signatures verify against. -/
structure AugmentedChain where
  certs : List Nat
  pubKey : Nat
deriving DecidableEq

/-- Abstract public-key derivation for the ideal signature model: the public
key corresponding to a private key. -/
def pubKeyOf (privKey : Nat) : Nat := privKey + 1

/-- Factory configuration, mirroring exchange.Config: version token, MI
record size, certificate chain, cert-url base, private key, and the
keep-non-SXG-preloads toggle. -/
structure Config where
  version : String
  miRecordSize : Nat
  certChain : AugmentedChain
  certURL : String
  privateKey : Nat
  keepNonSXGPreloads : Bool

/-- The message covered by an exchange signature: request identity, status,
canonicalized covered response headers, validity window, cert and validity
URLs, and the MI digest.  Modelled from the spec: step 4 of new_exchange. -/
structure SignedMessage where
  requestUrl : String
  requestMethod : String
  statusCode : Nat
  responseHeader : List (String × String)
  date : Int
  expires : Int
  certUrl : String
  validityUrl : String
  digest : Nat
deriving DecidableEq

/-- An exchange signature in the ideal signature model: a signature value
records the public key it verifies under and the exact message signed.
Cryptographic unforgeability is assumed, not modelled. -/
structure ExchSignature where
  date : Int
  expires : Int
  certUrl : String
  validityUrl : String
  signerKey : Nat
  message : SignedMessage
deriving DecidableEq

/-- A signed exchange: request identity, status, covered response headers,
the MI-encoded payload records with the record size (the MI header), the
Digest header value, and the signature header. -/
structure Exchange where
  requestUrl : String
  requestMethod : String
  requestHeader : List (String × String)
  statusCode : Nat
  responseHeader : List (String × String)
  miRecords : List (List Nat)
  miRecordSize : Nat
  digestHeader : Nat
  signature : Option ExchSignature
deriving DecidableEq

/-- An injective pairing on naturals standing in for a cryptographic hash
combine step (the hash itself cannot be embedded). -/
def hashStep (a b : Nat) : Nat := (a + b) * (a + b + 1) / 2 + b

/-- Hash of one payload record. -/
def hashRecord (xs : List Nat) : Nat :=
  xs.foldl (fun acc x => hashStep acc (x + 1)) 17

/-- Modelled from the spec: the MI digest over the record sequence — each
record hashed into a Merkle-style chain referenced by the Digest header. -/
def miDigest (records : List (List Nat)) : Nat :=
  records.foldr (fun r acc => hashStep (hashRecord r) acc) 11

/-- Modelled from the spec: resolution of the configured cert-url against the
request URL (u.ResolveReference) — an absolute reference is used as is, a
relative one is resolved against the base. -/
def resolveReference (base ref : String) : String :=
  if "https://".isPrefixOf ref then ref else base ++ ref

/-- Modelled from the spec: Factory.NewExchange — build the bare exchange,
MI-encode the payload in records of miRecordSize bytes (failing on a zero
record size), compute the Digest header, and attach a signature over the
format-prescribed message with date/expires from the valid period, the
resolved cert-url and the validity URL. -/
def NewExchange (fty : Config) (resp : Response) (vp : ValidPeriod)
    (validityURL : String) : Except String Exchange :=
  if fty.miRecordSize = 0 then .error "MI record size must be positive"
  else
    let records := chunkList fty.miRecordSize resp.payload
    let digest := miDigest records
    let fullHeader := resp.GetFullHeader fty.keepNonSXGPreloads
    let certUrl := resolveReference resp.request.url fty.certURL
    let msg : SignedMessage :=
      { requestUrl := resp.request.url
        requestMethod := resp.request.method
        statusCode := resp.statusCode
        responseHeader := fullHeader
        date := vp.date
        expires := vp.expires
        certUrl := certUrl
        validityUrl := validityURL
        digest := digest }
    .ok
      { requestUrl := resp.request.url
        requestMethod := resp.request.method
        requestHeader := resp.request.header
        statusCode := resp.statusCode
        responseHeader := fullHeader
        miRecords := records
        miRecordSize := fty.miRecordSize
        digestHeader := digest
        signature := some
          { date := vp.date
            expires := vp.expires
            certUrl := certUrl
            validityUrl := validityURL
            signerKey := pubKeyOf fty.privateKey
            message := msg } }

/-- Modelled from the spec: Factory.Verify — check signature freshness
(date within the signature window), decode the MI payload, re-derive the MI
digest from the payload and cross-check it against the Digest header, and
validate the signature against the factory's certificate chain; the decoded
payload is returned on success. -/
def Verify (fty : Config) (e : Exchange) (date : Int) :
    Except String (List Nat) :=
  match e.signature with
  | none => .error "missing signature"
  | some sig =>
    if sig.date ≤ date ∧ date ≤ sig.expires then
      if e.miRecordSize = 0 then .error "invalid MI record size"
      else
        let payload := e.miRecords.flatten
        if miDigest (chunkList e.miRecordSize payload) = e.digestHeader then
          if sig.signerKey = fty.certChain.pubKey then
            if sig.message =
                { requestUrl := e.requestUrl
                  requestMethod := e.requestMethod
                  statusCode := e.statusCode
                  responseHeader := e.responseHeader
                  date := sig.date
                  expires := sig.expires
                  certUrl := sig.certUrl
                  validityUrl := sig.validityUrl
                  digest := e.digestHeader } then
              .ok payload
            else .error "signature verification failed"
          else .error "certificate chain does not match the signature"
        else .error "digest mismatch"
    else .error "signature is expired or not yet valid"

end WebPackager.Exch

namespace WebPackager.Flags

/-- Durations are modelled as Go time.Duration values: integer nanoseconds. -/
def hour : Int := 3600 * 1000000000

/-- maxExpiry from cmd/webpackager: 7 * (24 * time.Hour). -/
def maxExpiry : Int := 7 * (24 * hour)

/-- maxGoodJSExpiry from cmd/webpackager: 1 * (24 * time.Hour). -/
def maxGoodJSExpiry : Int := 1 * (24 * hour)

/-- Embeds parseDuration from cmd/webpackager/flag_packager.go.  The call to
time.ParseDuration (Go standard library) is abstracted: the argument is the
result of parsing the flag string, none when parsing failed.  On a parse
error the underlying error is propagated; a non-positive duration and a
duration above max are rejected; otherwise the parsed value is returned
unchanged. -/
def parseDuration (parsed : Option Int) (max : Int) : Except String Int :=
  match parsed with
  | none => .error "invalid duration string"
  | some v =>
    if v ≤ 0 then .error "duration must be positive"
    else if v > max then .error "duration too large"
    else .ok v

/-- A valid-period rule as built by getValidPeriodRuleFromFlags: lifetimes per
media type with a default, mirroring vprule.PerContentType over
vprule.FixedLifetime values. -/
structure VPRule where
  perType : List (String × Int)
  deflt : Int
deriving DecidableEq

/-- Embeds getValidPeriodRuleFromFlags: parse --expiry against maxExpiry and
--js_expiry against maxGoodJSExpiry (or maxExpiry when --insecure_js_expiry
is set), accumulating the error messages; on success build the
per-content-type rule mapping the three JavaScript media types to the JS
lifetime with the default lifetime for everything else. -/
def getValidPeriodRuleFromFlags (flagExpiry flagJSExpiry : Option Int)
    (flagInsecureJSExpiry : Bool) : Except (List String) VPRule :=
  let r1 := parseDuration flagExpiry maxExpiry
  let maxJSExpiry := if flagInsecureJSExpiry then maxExpiry else maxGoodJSExpiry
  let r2 := parseDuration flagJSExpiry maxJSExpiry
  match r1, r2 with
  | .ok expiry, .ok jsExpiry =>
    .ok
      { perType :=
          [("application/javascript", jsExpiry),
           ("text/javascript", jsExpiry),
           ("application/x-javascript", jsExpiry)]
        deflt := expiry }
  | .error e1, .ok _ => .error ["invalid --expiry: " ++ e1]
  | .ok _, .error e2 => .error ["invalid --js_expiry: " ++ e2]
  | .error e1, .error e2 =>
    .error ["invalid --expiry: " ++ e1, "invalid --js_expiry: " ++ e2]

/-- Modelled from the spec: the media type a response is dispatched on —
"HTML containing inline scripts is treated as JS for this purpose". -/
def effectiveMediaType (mediaType : String) (hasInlineScript : Bool) : String :=
  if mediaType = "text/html" ∧ hasInlineScript then "application/javascript"
  else mediaType

/-- The three JavaScript media types recognized by the rule map. -/
def isJSMediaType (mediaType : String) : Bool :=
  mediaType = "application/javascript" ∨ mediaType = "text/javascript" ∨
    mediaType = "application/x-javascript"

/-- Modelled from the spec: applying a PerContentType rule — the lifetime of
the matching media type, or the default lifetime when no entry matches. -/
def lifetimeOf (r : VPRule) (mediaType : String) : Int :=
  (r.perType.lookup mediaType).getD r.deflt

/-- Modelled from the spec: a FixedLifetime rule produces the valid period
(date, date + lifetime); PerContentType dispatches on the media type. -/
def applyVPRule (r : VPRule) (mediaType : String) (date : Int) :
    WebPackager.Exch.ValidPeriod :=
  WebPackager.Exch.NewValidPeriodWithLifetime date (lifetimeOf r mediaType)

/-- A cache-materialization path mapping as composed by
getResourceCacheFromFlags, mirroring the filewrite mapping combinators. -/
inductive MappingSpec where
  | usePhysicalURLPath
  | appendExt (base : MappingSpec) (ext : String)
  | addBaseDir (base : MappingSpec) (dir : String)
deriving DecidableEq

/-- Configuration of the file-writing resource cache: the optional mapping
for materialized exchanges (the base cache is the on-memory cache). -/
structure FileWriteConfig where
  exchangeMapping : Option MappingSpec
deriving DecidableEq

/-- The resource cache value built from flags. -/
inductive ResourceCache where
  | fileWriteCache (config : FileWriteConfig)
deriving DecidableEq

/-- Embeds getResourceCacheFromFlags: wrap the on-memory cache in a file-write
cache; a non-empty --sxg_dir installs the exchange mapping; a non-empty
--validity_dir is rejected as unimplemented. -/
def getResourceCacheFromFlags (flagSXGExt flagSXGDir flagValidityDir : String) :
    Except String ResourceCache :=
  let mapping : Option MappingSpec :=
    if flagSXGDir ≠ "" then
      some (.addBaseDir (.appendExt .usePhysicalURLPath flagSXGExt) flagSXGDir)
    else none
  if flagValidityDir ≠ "" then .error "--validity_dir is not implemented yet"
  else .ok (.fileWriteCache { exchangeMapping := mapping })

end WebPackager.Flags

namespace WebPackager.Preverify

/-- The response as seen by preverify processors: status code, headers and
payload. -/
structure Response where
  statusCode : Nat
  header : List (String × String)
  payload : List Nat
deriving DecidableEq

/-- The error produced by the status filter, mirroring
preverify.HTTPStatusError. -/
inductive ProcessError where
  | httpStatus (code : Nat)
deriving DecidableEq

/-- Mirrors preverify.NewHTTPStatusError. -/
def NewHTTPStatusError (code : Nat) : ProcessError := .httpStatus code

/-- Modelled from the spec: the status-filter processor built by
preverify.HTTPStatusCode(codes...) — succeed leaving the response unchanged
when the status code is in the allow-set, fail with HTTPStatus(code)
otherwise. -/
def HTTPStatusCode (allow : List Nat) (resp : Response) :
    Response × Option ProcessError :=
  if resp.statusCode ∈ allow then (resp, none)
  else (resp, some (NewHTTPStatusError resp.statusCode))

end WebPackager.Preverify

namespace WebPackager.HtmlProc

/-- The shared parsed-document view handed to HTML tasks: response headers
and the accumulated preload list. -/
structure HTMLResponse where
  header : List (String × String)
  preloads : List String
deriving DecidableEq

/-- An HTML task: a label (the observable identity used by the ordering
contract) and an action that may mutate the response view or fail. -/
structure HTMLTask where
  label : String
  run : HTMLResponse → HTMLResponse × Option String

/-- Modelled from the spec: the HTML processor runs its task list in declared
order on the shared document view; the first failing task aborts the run and
its error is returned.  The list of labels of the tasks actually run is
returned alongside (the observable `called` order). -/
def runTasks : List HTMLTask → HTMLResponse →
    HTMLResponse × List String × Option String
  | [], r => (r, [], none)
  | t :: ts, r =>
    let step := t.run r
    match step.2 with
    | some e => (step.1, [t.label], some e)
    | none =>
      let rest := runTasks ts step.1
      (rest.1, t.label :: rest.2.1, rest.2.2)

end WebPackager.HtmlProc

namespace WebPackager.Validity

/-- A URL as used by the validity-URL rules: scheme, host, path and an
optional query component. -/
structure VURL where
  scheme : String
  host : String
  path : String
  query : Option String
deriving DecidableEq

/-- Renders a URL the way Go's url.URL.String does for these components. -/
def urlString (u : VURL) : String :=
  u.scheme ++ "://" ++ u.host ++ u.path ++
    (match u.query with
     | none => ""
     | some q => "?" ++ q)

/-- Dropping the query component of a URL. -/
def stripQuery (u : VURL) : VURL := { u with query := none }

/-- The response as seen by validity-URL rules.  The Last-Modified header is
modelled by the outcome of parsing it with the Go standard library: none when
the header is absent, some none when present but unparseable, and
some (some t) when it parses to Unix time t. -/
structure Response where
  lastModified : Option (Option Int)
  contentType : String
deriving DecidableEq

/-- Modelled from the spec: the shared derivation — the query-stripped URL
with the extension, a dot, and the decimal Unix-seconds value appended to the
path. -/
def appendExtDotUnixTime (ext : String) (t : Int) (u : VURL) : VURL :=
  { stripQuery u with path := u.path ++ ext ++ "." ++ toString t }

/-- Modelled from the spec: validity.AppendExtDotExchangeDate(ext) — the
validity URL is strip_query(physical_url) + ext + "." +
unix_seconds(valid_period.date). -/
def AppendExtDotExchangeDate (ext : String) (physurl : VURL) (resp : Response)
    (vp : WebPackager.Exch.ValidPeriod) : VURL :=
  appendExtDotUnixTime ext vp.date physurl

/-- Modelled from the spec: validity.AppendExtDotLastModified(ext) — the
validity URL is strip_query(physical_url) + ext + "." +
unix_seconds(Last-Modified); when Last-Modified is absent or unparseable it
falls back to unix_seconds(valid_period.date). -/
def AppendExtDotLastModified (ext : String) (physurl : VURL) (resp : Response)
    (vp : WebPackager.Exch.ValidPeriod) : VURL :=
  match resp.lastModified with
  | some (some t) => appendExtDotUnixTime ext t physurl
  | _ => appendExtDotUnixTime ext vp.date physurl

end WebPackager.Validity

namespace WebPackager.Server

/-- The components of a parsed URL as produced by Go's url.Parse: scheme,
userinfo presence, host, path, raw query and fragment. -/
structure GoURL where
  scheme : String
  hasUser : Bool
  host : String
  path : String
  rawQuery : String
  fragment : String
deriving DecidableEq

/-- Modelled from the spec: clean-path — "." and ".." segment resolution with
empty segments collapsed — over a list of path segments held in reverse
accumulator order. -/
def resolveSegments (acc : List String) : List String → List String
  | [] => acc.reverse
  | s :: rest =>
    if s = "" ∨ s = "." then resolveSegments acc rest
    else if s = ".." then resolveSegments acc.tail rest
    else resolveSegments (s :: acc) rest

/-- Splits a character list on the slash character (the segments of a URL
path). -/
def splitOnSlash : List Char → List (List Char)
  | [] => [[]]
  | c :: cs =>
    if c = '/' then [] :: splitOnSlash cs
    else
      match splitOnSlash cs with
      | [] => [[c]]
      | s :: ss => (c :: s) :: ss

/-- Modelled from the spec: urlutil.GetCleanPath — the cleaned, rooted form
of the URL path. -/
def GetCleanPath (u : GoURL) : String :=
  "/" ++ String.intercalate "/"
    (resolveSegments []
      ((splitOnSlash u.path.toList).map (fun cs => String.mk cs)))

/-- Whether a byte must be percent-escaped in a path segment, following Go's
url.PathEscape: ASCII letters, digits, the unreserved marks and the
sub-delimiters kept verbatim in path segments (among them both the ampersand
and the equals sign) pass through; everything else is escaped. -/
def shouldEscape (c : Char) : Bool :=
  if ('a' ≤ c ∧ c ≤ 'z') ∨ ('A' ≤ c ∧ c ≤ 'Z') ∨ ('0' ≤ c ∧ c ≤ '9') then
    false
  else if c = '-' ∨ c = '_' ∨ c = '.' ∨ c = '~' then false
  else if c = '$' ∨ c = '&' ∨ c = '+' ∨ c = ':' ∨ c = '=' ∨ c = '@' then false
  else true

/-- An uppercase hexadecimal digit. -/
def hexDigit (n : Nat) : Char :=
  if n < 10 then Char.ofNat (n + 48) else Char.ofNat (n - 10 + 65)

/-- The percent-escaping of one character (ASCII model of Go's byte-wise
escaping). -/
def escapeChar (c : Char) : String :=
  if shouldEscape c then
    String.mk ['%', hexDigit (c.toNat / 16), hexDigit (c.toNat % 16)]
  else String.singleton c

/-- Models Go's url.PathEscape applied to the raw query: each character is
kept or percent-escaped according to shouldEscape. -/
def PathEscape (s : String) : String :=
  String.join (s.toList.map escapeChar)

/-- Embeds parseSignURL from the server handler: reject an empty string, a
parse failure, a non-https scheme, userinfo, or a fragment; on success return
the URL with its path cleaned and its raw query percent-escaped.  Go's
url.Parse is abstracted by the `parsed` argument: none when parsing fails,
otherwise the parsed components. -/
def parseSignURL (rawurl : String) (parsed : Option GoURL) :
    Except String GoURL :=
  if rawurl = "" then .error "must be non-empty"
  else
    match parsed with
    | none => .error "parse error"
    | some u =>
      if u.scheme ≠ "https" then .error "must start with https://"
      else if u.hasUser then .error "must not have user:pass@"
      else if u.fragment ≠ "" then .error "must not have #fragment"
      else .ok { u with path := GetCleanPath u, rawQuery := PathEscape u.rawQuery }

/-- Error kinds used by the handler dispatch on packager failures, after
filterError has reduced the aggregate to the error for the target URL. -/
inductive ErrKind where
  | httpStatus (code : Nat)
  | urlMismatch
  | other
deriving DecidableEq

/-- The replies a handler can produce, with their HTTP status codes. -/
inductive HReply where
  | okReply (body : List Nat) (mimeType : String)
  | clientError
  | clientErrorSilent
  | serverError
  | errorStatus (code : Nat)
deriving DecidableEq

/-- The HTTP status code of a reply: replyOK is 200, replyClientError and
replyClientErrorSilent are 400, replyServerError is 500. -/
def statusOfReply : HReply → Nat
  | .okReply _ _ => 200
  | .clientError => 400
  | .clientErrorSilent => 400
  | .serverError => 500
  | .errorStatus code => code

/-- Embeds verifyAcceptHeader: some Accept header value must contain
"application/signed-exchange". -/
def verifyAcceptHeader (acceptValues : List String) : Bool :=
  acceptValues.any (fun v => WebPackager.strContains v "application/signed-exchange")

/-- A doc request as seen by handleDocImpl: the Accept header values, the
raw sign URL, and the outcome of url.Parse on it. -/
structure DocRequest where
  acceptValues : List String
  signURL : String
  signURLParsed : Option GoURL
deriving DecidableEq

/-- The outcome of Packager.RunForRequest: an optional resource artifact
(the serialized exchange body and MIME type) and an optional error. -/
structure PackOutcome where
  resource : Option (List Nat × String)
  err : Option ErrKind
deriving DecidableEq

/-- Embeds handleDocImpl: verify the Accept header (client error on
failure), parse the sign URL (client error on failure), then run the
packager; a packager HTTPStatus error is re-emitted as that status, a URL
mismatch becomes a silent client error, any other error a server error; a
missing resource is a server error, and otherwise the serialized exchange is
served.  The boolean records whether the packager was invoked. -/
def handleDocImpl (packager : GoURL → PackOutcome) (req : DocRequest) :
    HReply × Bool :=
  if ¬ verifyAcceptHeader req.acceptValues then (.clientError, false)
  else
    match parseSignURL req.signURL req.signURLParsed with
    | .error _ => (.clientError, false)
    | .ok u =>
      let out := packager u
      match out.err with
      | some (.httpStatus code) => (.errorStatus code, true)
      | some .urlMismatch => (.clientErrorSilent, true)
      | some .other => (.serverError, true)
      | none =>
        match out.resource with
        | none => (.serverError, true)
        | some (body, mimeType) => (.okReply body mimeType, true)

/-- Models url.Values.Get: the first value for the key, or the empty string
when the key is absent. -/
def queryGet (query : List (String × String)) (key : String) : String :=
  (query.lookup key).getD ""

/-- Embeds handleDoc: the sign URL is taken from the request query under the
configured sign parameter and passed to handleDocImpl.  The parse function
models url.Parse. -/
def handleDoc (packager : GoURL → PackOutcome)
    (parse : String → Option GoURL) (signParam : String)
    (acceptValues : List String) (query : List (String × String)) :
    HReply × Bool :=
  handleDocImpl packager
    { acceptValues := acceptValues
      signURL := queryGet query signParam
      signURLParsed := parse (queryGet query signParam) }

end WebPackager.Server

namespace WebPackager

/-- C1: Round-trip of the signed exchange factory — for every response,
valid period, validity URL, certificate chain and matching private key (with
a positive MI record size), Verify applied to the exchange produced by
NewExchange at any date inside the valid period succeeds and returns the
original response payload. -/
theorem C1_factory_roundtrip
    (fty : Exch.Config) (resp : Exch.Response) (vp : Exch.ValidPeriod)
    (validityURL : String) (d : Int)
    (hrs : fty.miRecordSize ≠ 0)
    (hkey : fty.certChain.pubKey = Exch.pubKeyOf fty.privateKey)
    (hd1 : vp.date ≤ d) (hd2 : d ≤ vp.expires) :
    ∃ e, Exch.NewExchange fty resp vp validityURL = .ok e ∧
      Exch.Verify fty e d = .ok resp.payload := by
  unfold Exch.NewExchange
  simp only [hrs, ite_false]
  refine ⟨_, rfl, ?_⟩
  unfold Exch.Verify
  simp only
  rw [if_pos ⟨hd1, hd2⟩]
  simp only [hrs, ite_false]
  rw [chunkList_flatten fty.miRecordSize hrs resp.payload]
  simp [hkey]

/-- Witness for C1 at a concrete factory, response, valid period and the
midpoint date of the period. -/
theorem C1_factory_roundtrip_witness :
    ∃ e,
      Exch.NewExchange
        { version := "1b3", miRecordSize := 2,
          certChain := { certs := [3], pubKey := 6 },
          certURL := "https://cdn.test/cert.cbor", privateKey := 5,
          keepNonSXGPreloads := false }
        { request := { url := "https://example.org/hello.html",
                       method := "GET", header := [] },
          statusCode := 200,
          header := [("Content-Type", "text/html")],
          sxgPreloadHeader := [], nonSXGPreloadHeader := [],
          payload := [1, 2, 3, 4, 5] }
        { date := 1000, expires := 1200 }
        "https://example.org/hello.html.validity.1000" = .ok e ∧
      Exch.Verify
        { version := "1b3", miRecordSize := 2,
          certChain := { certs := [3], pubKey := 6 },
          certURL := "https://cdn.test/cert.cbor", privateKey := 5,
          keepNonSXGPreloads := false }
        e 1100 = .ok [1, 2, 3, 4, 5] :=
  C1_factory_roundtrip
    { version := "1b3", miRecordSize := 2,
      certChain := { certs := [3], pubKey := 6 },
      certURL := "https://cdn.test/cert.cbor", privateKey := 5,
      keepNonSXGPreloads := false }
    { request := { url := "https://example.org/hello.html",
                   method := "GET", header := [] },
      statusCode := 200,
      header := [("Content-Type", "text/html")],
      sxgPreloadHeader := [], nonSXGPreloadHeader := [],
      payload := [1, 2, 3, 4, 5] }
    { date := 1000, expires := 1200 }
    "https://example.org/hello.html.validity.1000" 1100
    (by decide) (by decide) (by decide) (by decide)

end WebPackager

namespace WebPackager

/-- Inversion for parseDuration: a successful parse yields a positive value
within the bound. -/
theorem parseDuration_ok_bounds (parsed : Option Int) (max v : Int)
    (h : Flags.parseDuration parsed max = .ok v) : 0 < v ∧ v ≤ max := by
  unfold Flags.parseDuration at h
  match parsed with
  | none => exact absurd h (by simp)
  | some w =>
    simp only at h
    by_cases h1 : w ≤ 0
    · rw [if_pos h1] at h
      exact absurd h (by simp)
    · rw [if_neg h1] at h
      by_cases h2 : w > max
      · rw [if_pos h2] at h
        exact absurd h (by simp)
      · rw [if_neg h2] at h
        injection h with h
        subst h
        omega

/-- parseDuration fails on any value above the bound. -/
theorem parseDuration_error_above (max v : Int) (h : max < v) :
    ∃ msg, Flags.parseDuration (some v) max = .error msg := by
  by_cases h1 : v ≤ 0
  · exact ⟨"duration must be positive", by simp [Flags.parseDuration, h1]⟩
  · exact ⟨"duration too large", by simp [Flags.parseDuration, h1, h]⟩

/-- C2: JS expiry cap — whenever the valid-period rule is built successfully
from the flags, every valid period it produces has a lifetime of at most
168h, resources whose effective media type is JavaScript (including HTML
with inline scripts, which is treated as JS) get at most 24h unless the
insecure-JS-expiry switch raises the cap to 168h, and the builder rejects
any --expiry or --js_expiry value exceeding the applicable cap. -/
theorem C2_expiry_caps
    (flagExpiry flagJSExpiry : Option Int) (insecure : Bool)
    (r : Flags.VPRule)
    (hok : Flags.getValidPeriodRuleFromFlags flagExpiry flagJSExpiry insecure
      = .ok r) :
    (∀ mediaType hasInlineScript date,
      (Flags.applyVPRule r (Flags.effectiveMediaType mediaType hasInlineScript)
          date).expires -
        (Flags.applyVPRule r
          (Flags.effectiveMediaType mediaType hasInlineScript) date).date ≤
        Flags.maxExpiry ∧
      (Flags.isJSMediaType
          (Flags.effectiveMediaType mediaType hasInlineScript) = true →
        (Flags.applyVPRule r
            (Flags.effectiveMediaType mediaType hasInlineScript) date).expires -
          (Flags.applyVPRule r
            (Flags.effectiveMediaType mediaType hasInlineScript) date).date ≤
          if insecure then Flags.maxExpiry else Flags.maxGoodJSExpiry)) ∧
    (∀ v, Flags.maxExpiry < v →
      ∃ msgs, Flags.getValidPeriodRuleFromFlags (some v) flagJSExpiry insecure
        = .error msgs) ∧
    (∀ v, (if insecure then Flags.maxExpiry else Flags.maxGoodJSExpiry) < v →
      ∃ msgs, Flags.getValidPeriodRuleFromFlags flagExpiry (some v) insecure
        = .error msgs) := by
  unfold Flags.getValidPeriodRuleFromFlags at hok
  simp only [] at hok
  cases h1 : Flags.parseDuration flagExpiry Flags.maxExpiry with
  | error e1 =>
    rw [h1] at hok
    cases h2 : Flags.parseDuration flagJSExpiry
        (if insecure then Flags.maxExpiry else Flags.maxGoodJSExpiry) with
    | error e2 => rw [h2] at hok; exact absurd hok (by simp)
    | ok js => rw [h2] at hok; exact absurd hok (by simp)
  | ok expiry =>
    rw [h1] at hok
    cases h2 : Flags.parseDuration flagJSExpiry
        (if insecure then Flags.maxExpiry else Flags.maxGoodJSExpiry) with
    | error e2 => rw [h2] at hok; exact absurd hok (by simp)
    | ok js =>
      rw [h2] at hok
      have hr : r =
          { perType :=
              [("application/javascript", js), ("text/javascript", js),
               ("application/x-javascript", js)]
            deflt := expiry } := by
        injection hok with hok
        exact hok.symm
      subst hr
      obtain ⟨hjs0, hjsmax⟩ := parseDuration_ok_bounds _ _ _ h2
      obtain ⟨hex0, hexmax⟩ := parseDuration_ok_bounds _ _ _ h1
      have hgood : Flags.maxGoodJSExpiry ≤ Flags.maxExpiry := by
        unfold Flags.maxGoodJSExpiry Flags.maxExpiry Flags.hour
        omega
      have hjsmax' : js ≤ Flags.maxExpiry := by
        rcases insecure with _ | _ <;> simp at hjsmax <;> omega
      refine ⟨?_, ?_, ?_⟩
      · intro mediaType hasInlineScript date
        set emt := Flags.effectiveMediaType mediaType hasInlineScript with hemt
        have happly : ∀ (mt : String),
            (Flags.applyVPRule
              { perType :=
                  [("application/javascript", js), ("text/javascript", js),
                   ("application/x-javascript", js)]
                deflt := expiry } mt date).expires -
            (Flags.applyVPRule
              { perType :=
                  [("application/javascript", js), ("text/javascript", js),
                   ("application/x-javascript", js)]
                deflt := expiry } mt date).date =
            Flags.lifetimeOf
              { perType :=
                  [("application/javascript", js), ("text/javascript", js),
                   ("application/x-javascript", js)]
                deflt := expiry } mt := by
          intro mt
          unfold Flags.applyVPRule Exch.NewValidPeriodWithLifetime
          simp
        rw [happly]
        by_cases hj : Flags.isJSMediaType emt = true
        · have hlife : Flags.lifetimeOf
              { perType :=
                  [("application/javascript", js), ("text/javascript", js),
                   ("application/x-javascript", js)]
                deflt := expiry } emt = js := by
            unfold Flags.isJSMediaType at hj
            unfold Flags.lifetimeOf
            simp only [decide_eq_true_eq] at hj
            rcases hj with hj | hj | hj <;> rw [hj] <;> simp [List.lookup]
          rw [hlife]
          exact ⟨hjsmax', fun _ => hjsmax⟩
        · have hlife : Flags.lifetimeOf
              { perType :=
                  [("application/javascript", js), ("text/javascript", js),
                   ("application/x-javascript", js)]
                deflt := expiry } emt = expiry := by
            unfold Flags.isJSMediaType at hj
            unfold Flags.lifetimeOf
            simp only [decide_eq_true_eq] at hj
            push_neg at hj
            obtain ⟨hj1, hj2, hj3⟩ := hj
            have hb1 : (emt == "application/javascript") = false :=
              beq_eq_false_iff_ne.mpr hj1
            have hb2 : (emt == "text/javascript") = false :=
              beq_eq_false_iff_ne.mpr hj2
            have hb3 : (emt == "application/x-javascript") = false :=
              beq_eq_false_iff_ne.mpr hj3
            simp [List.lookup, hb1, hb2, hb3]
          rw [hlife]
          exact ⟨hexmax, fun hcontra => absurd hcontra hj⟩
      · intro v hv
        obtain ⟨msg, hmsg⟩ := parseDuration_error_above Flags.maxExpiry v hv
        refine ⟨["invalid --expiry: " ++ msg], ?_⟩
        unfold Flags.getValidPeriodRuleFromFlags
        simp only []
        rw [hmsg, h2]
      · intro v hv
        obtain ⟨msg, hmsg⟩ := parseDuration_error_above _ v hv
        refine ⟨["invalid --js_expiry: " ++ msg], ?_⟩
        unfold Flags.getValidPeriodRuleFromFlags
        simp only []
        rw [hmsg, h1]

end WebPackager

namespace WebPackager

/-- Witness for C2 at the default flag values (expiry 72h, JS expiry 12h,
secure mode), instantiated on the text/javascript media type. -/
theorem C2_expiry_caps_witness :
    Flags.getValidPeriodRuleFromFlags (some 259200000000000)
        (some 43200000000000) false =
      .ok { perType := [("application/javascript", 43200000000000),
                        ("text/javascript", 43200000000000),
                        ("application/x-javascript", 43200000000000)],
            deflt := 259200000000000 } ∧
    ((Flags.applyVPRule
        { perType := [("application/javascript", 43200000000000),
                      ("text/javascript", 43200000000000),
                      ("application/x-javascript", 43200000000000)],
          deflt := 259200000000000 }
        (Flags.effectiveMediaType "text/javascript" false) 1561939200).expires -
      (Flags.applyVPRule
        { perType := [("application/javascript", 43200000000000),
                      ("text/javascript", 43200000000000),
                      ("application/x-javascript", 43200000000000)],
          deflt := 259200000000000 }
        (Flags.effectiveMediaType "text/javascript" false) 1561939200).date ≤
      Flags.maxExpiry ∧
    (Flags.isJSMediaType (Flags.effectiveMediaType "text/javascript" false)
        = true →
      (Flags.applyVPRule
        { perType := [("application/javascript", 43200000000000),
                      ("text/javascript", 43200000000000),
                      ("application/x-javascript", 43200000000000)],
          deflt := 259200000000000 }
        (Flags.effectiveMediaType "text/javascript" false) 1561939200).expires -
      (Flags.applyVPRule
        { perType := [("application/javascript", 43200000000000),
                      ("text/javascript", 43200000000000),
                      ("application/x-javascript", 43200000000000)],
          deflt := 259200000000000 }
        (Flags.effectiveMediaType "text/javascript" false) 1561939200).date ≤
      if false then Flags.maxExpiry else Flags.maxGoodJSExpiry)) :=
  ⟨rfl,
   (C2_expiry_caps (some 259200000000000) (some 43200000000000) false
      { perType := [("application/javascript", 43200000000000),
                    ("text/javascript", 43200000000000),
                    ("application/x-javascript", 43200000000000)],
        deflt := 259200000000000 }
      rfl).1 "text/javascript" false 1561939200⟩

end WebPackager

namespace WebPackager

/-- C3: Status filter — the HTTP-status preverify processor fails with
HTTPStatus(code) exactly when the response status code is outside the
configured allow-set, succeeds exactly when it is inside, and never alters
the response. -/
theorem C3_http_status_filter (allow : List Nat) (resp : Preverify.Response) :
    ((Preverify.HTTPStatusCode allow resp).2 =
        some (Preverify.NewHTTPStatusError resp.statusCode) ↔
      resp.statusCode ∉ allow) ∧
    ((Preverify.HTTPStatusCode allow resp).2 = none ↔
      resp.statusCode ∈ allow) ∧
    (Preverify.HTTPStatusCode allow resp).1 = resp := by
  unfold Preverify.HTTPStatusCode
  by_cases h : resp.statusCode ∈ allow
  · simp [h]
  · simp [h]

/-- C4: HTML processor ordering and short-circuit — when the first task
succeeds and the second fails, the tasks run in declared order, the third
task never runs (the called order stops at the second label) and the
returned error is exactly the second task's error; when all three tasks
succeed, each runs exactly once in declared order. -/
theorem C4_html_task_ordering :
    (∀ (t1 t2 t3 : HtmlProc.HTMLTask) (r : HtmlProc.HTMLResponse) (e : String),
      (t1.run r).2 = none → (t2.run (t1.run r).1).2 = some e →
      HtmlProc.runTasks [t1, t2, t3] r =
        ((t2.run (t1.run r).1).1, [t1.label, t2.label], some e)) ∧
    (∀ (t1 t2 t3 : HtmlProc.HTMLTask) (r : HtmlProc.HTMLResponse),
      (t1.run r).2 = none → (t2.run (t1.run r).1).2 = none →
      (t3.run (t2.run (t1.run r).1).1).2 = none →
      HtmlProc.runTasks [t1, t2, t3] r =
        ((t3.run (t2.run (t1.run r).1).1).1,
          [t1.label, t2.label, t3.label], none)) := by
  constructor
  · intro t1 t2 t3 r e h1 h2
    simp [HtmlProc.runTasks, h1, h2]
  · intro t1 t2 t3 r h1 h2 h3
    simp [HtmlProc.runTasks, h1, h2, h3]

/-- Witness for C4: three concrete tasks where the second fails with
"errDummy" — the run stops after the second label with exactly that error. -/
theorem C4_html_task_ordering_witness :
    HtmlProc.runTasks
      [{ label := "Task1", run := fun r => (r, none) },
       { label := "Task2", run := fun r => (r, some "errDummy") },
       { label := "Task3", run := fun r => (r, none) }]
      { header := [], preloads := [] } =
      ({ header := [], preloads := [] }, ["Task1", "Task2"],
        some "errDummy") :=
  C4_html_task_ordering.1
    { label := "Task1", run := fun r => (r, none) }
    { label := "Task2", run := fun r => (r, some "errDummy") }
    { label := "Task3", run := fun r => (r, none) }
    { header := [], preloads := [] } "errDummy" rfl rfl

/-- Rendering a query-stripped URL whose path got a suffix appended equals
rendering the query-stripped URL and appending the suffix. -/
theorem urlString_strip_append (u : Validity.VURL) (s1 s2 s3 : String) :
    Validity.urlString
        { scheme := u.scheme, host := u.host,
          path := u.path ++ s1 ++ s2 ++ s3, query := none } =
      Validity.urlString (Validity.stripQuery u) ++ s1 ++ s2 ++ s3 := by
  unfold Validity.urlString Validity.stripQuery
  simp only [String.append_empty, String.append_assoc]

/-- C5: Last-Modified validity-URL rule — for a response whose Last-Modified
header parses to Unix time t, the rule returns the query-stripped physical
URL with ext, a dot, and t appended; the query component is dropped. -/
theorem C5_last_modified_rule (ext : String) (physurl : Validity.VURL)
    (resp : Validity.Response) (vp : Exch.ValidPeriod) (t : Int)
    (h : resp.lastModified = some (some t)) :
    Validity.AppendExtDotLastModified ext physurl resp vp =
      { scheme := physurl.scheme, host := physurl.host,
        path := physurl.path ++ ext ++ "." ++ toString t, query := none } ∧
    Validity.urlString
        (Validity.AppendExtDotLastModified ext physurl resp vp) =
      Validity.urlString (Validity.stripQuery physurl) ++ ext ++ "." ++
        toString t ∧
    (Validity.AppendExtDotLastModified ext physurl resp vp).query = none := by
  unfold Validity.AppendExtDotLastModified
  rw [h]
  refine ⟨rfl, ?_, rfl⟩
  exact urlString_strip_append physurl ext "." (toString t)

/-- Witness for C5 at the repository's test vector: physical URL
https://example.com/index.php?id=42 with Last-Modified parsing to
1561984496 and extension ".validity". -/
theorem C5_last_modified_rule_witness :
    Validity.AppendExtDotLastModified ".validity"
        { scheme := "https", host := "example.com", path := "/index.php",
          query := some "id=42" }
        { lastModified := some (some 1561984496),
          contentType := "text/html" }
        { date := 1561939200, expires := 1562025600 } =
      { scheme := "https", host := "example.com",
        path := "/index.php" ++ ".validity" ++ "." ++
          toString (1561984496 : Int),
        query := none } ∧
    Validity.urlString
        (Validity.AppendExtDotLastModified ".validity"
          { scheme := "https", host := "example.com", path := "/index.php",
            query := some "id=42" }
          { lastModified := some (some 1561984496),
            contentType := "text/html" }
          { date := 1561939200, expires := 1562025600 }) =
      Validity.urlString
          (Validity.stripQuery
            { scheme := "https", host := "example.com", path := "/index.php",
              query := some "id=42" }) ++ ".validity" ++ "." ++
        toString (1561984496 : Int) ∧
    (Validity.AppendExtDotLastModified ".validity"
        { scheme := "https", host := "example.com", path := "/index.php",
          query := some "id=42" }
        { lastModified := some (some 1561984496),
          contentType := "text/html" }
        { date := 1561939200, expires := 1562025600 }).query = none :=
  C5_last_modified_rule ".validity"
    { scheme := "https", host := "example.com", path := "/index.php",
      query := some "id=42" }
    { lastModified := some (some 1561984496), contentType := "text/html" }
    { date := 1561939200, expires := 1562025600 } 1561984496 rfl

/-- C6: Validity-URL fallback equivalence — when Last-Modified is absent or
unparseable, the LastModified rule returns exactly the ExchangeDate rule's
output: the query-stripped physical URL with ext, a dot, and the valid
period's date appended. -/
theorem C6_validity_url_fallback (ext : String) (physurl : Validity.VURL)
    (resp : Validity.Response) (vp : Exch.ValidPeriod)
    (h : resp.lastModified = none ∨ resp.lastModified = some none) :
    Validity.AppendExtDotLastModified ext physurl resp vp =
      Validity.AppendExtDotExchangeDate ext physurl resp vp ∧
    Validity.urlString
        (Validity.AppendExtDotLastModified ext physurl resp vp) =
      Validity.urlString (Validity.stripQuery physurl) ++ ext ++ "." ++
        toString vp.date := by
  have heq : Validity.AppendExtDotLastModified ext physurl resp vp =
      Validity.appendExtDotUnixTime ext vp.date physurl := by
    unfold Validity.AppendExtDotLastModified
    rcases h with h | h <;> rw [h]
  refine ⟨heq, ?_⟩
  rw [heq]
  exact urlString_strip_append physurl ext "." (toString vp.date)

/-- Witness for C6 at the repository's test vector: an unparseable
Last-Modified header falls back to the exchange date 1561939200. -/
theorem C6_validity_url_fallback_witness :
    Validity.AppendExtDotLastModified ".validity"
        { scheme := "https", host := "example.com", path := "/index.html",
          query := none }
        { lastModified := some none, contentType := "text/html" }
        { date := 1561939200, expires := 1562025600 } =
      Validity.AppendExtDotExchangeDate ".validity"
        { scheme := "https", host := "example.com", path := "/index.html",
          query := none }
        { lastModified := some none, contentType := "text/html" }
        { date := 1561939200, expires := 1562025600 } ∧
    Validity.urlString
        (Validity.AppendExtDotLastModified ".validity"
          { scheme := "https", host := "example.com", path := "/index.html",
            query := none }
          { lastModified := some none, contentType := "text/html" }
          { date := 1561939200, expires := 1562025600 }) =
      Validity.urlString
          (Validity.stripQuery
            { scheme := "https", host := "example.com", path := "/index.html",
              query := none }) ++ ".validity" ++ "." ++
        toString (({ date := 1561939200, expires := 1562025600 } :
          Exch.ValidPeriod)).date :=
  C6_validity_url_fallback ".validity"
    { scheme := "https", host := "example.com", path := "/index.html",
      query := none }
    { lastModified := some none, contentType := "text/html" }
    { date := 1561939200, expires := 1562025600 } (Or.inr rfl)

end WebPackager

namespace WebPackager

/-- C7: Sign-URL validation — parseSignURL succeeds exactly on a non-empty,
parseable URL with scheme https, no userinfo and no fragment; on success it
returns the URL with cleaned path and the query percent-escaped, where the
escaping keeps the ampersand and equals sign verbatim while escaping other
special characters; and when parsing fails the doc endpoint replies with a
400 client error. -/
theorem C7_parse_sign_url :
    (∀ (raw : String) (parsed : Option Server.GoURL) (u : Server.GoURL),
      Server.parseSignURL raw parsed = .ok u →
      raw ≠ "" ∧ ∃ p, parsed = some p ∧ p.scheme = "https" ∧
        p.hasUser = false ∧ p.fragment = "" ∧
        u = { p with path := Server.GetCleanPath p,
                     rawQuery := Server.PathEscape p.rawQuery }) ∧
    (∀ (raw : String) (p : Server.GoURL),
      raw ≠ "" → p.scheme = "https" → p.hasUser = false → p.fragment = "" →
      Server.parseSignURL raw (some p) =
        .ok { p with path := Server.GetCleanPath p,
                     rawQuery := Server.PathEscape p.rawQuery }) ∧
    (Server.escapeChar '&' = "&" ∧ Server.escapeChar '=' = "=" ∧
      Server.escapeChar '<' = "%3C" ∧ Server.escapeChar '|' = "%7C") ∧
    (∀ (packager : Server.GoURL → Server.PackOutcome)
        (req : Server.DocRequest) (msg : String),
      Server.parseSignURL req.signURL req.signURLParsed = .error msg →
      Server.handleDocImpl packager req = (.clientError, false) ∨
        Server.verifyAcceptHeader req.acceptValues = false) ∧
    (∀ (packager : Server.GoURL → Server.PackOutcome)
        (req : Server.DocRequest) (msg : String),
      Server.parseSignURL req.signURL req.signURLParsed = .error msg →
      Server.verifyAcceptHeader req.acceptValues = true →
      Server.statusOfReply (Server.handleDocImpl packager req).1 = 400 ∧
        (Server.handleDocImpl packager req).2 = false) := by
  refine ⟨?_, ?_, ⟨rfl, rfl, rfl, rfl⟩, ?_, ?_⟩
  · intro raw parsed u hu
    unfold Server.parseSignURL at hu
    by_cases hr : raw = ""
    · rw [if_pos hr] at hu
      exact absurd hu (by simp)
    · rw [if_neg hr] at hu
      cases parsed with
      | none => exact absurd hu (by simp)
      | some p =>
        simp only at hu
        by_cases h1 : p.scheme ≠ "https"
        · rw [if_pos h1] at hu
          exact absurd hu (by simp)
        · rw [if_neg h1] at hu
          push_neg at h1
          by_cases h2 : p.hasUser = true
          · simp only [h2, if_true] at hu
            exact absurd hu (by simp)
          · simp only [eq_false_of_ne_true h2, if_false, Bool.false_eq_true] at hu
            by_cases h3 : p.fragment ≠ ""
            · rw [if_pos h3] at hu
              exact absurd hu (by simp)
            · rw [if_neg h3] at hu
              push_neg at h3
              injection hu with hu
              refine ⟨hr, p, rfl, h1, eq_false_of_ne_true h2, h3, ?_⟩
              rw [eq_false_of_ne_true h2]
              exact hu.symm
  · intro raw p hr h1 h2 h3
    unfold Server.parseSignURL
    rw [if_neg hr]
    simp only [h1, h2, h3]
    simp
  · intro packager req msg hmsg
    unfold Server.handleDocImpl
    by_cases ha : Server.verifyAcceptHeader req.acceptValues = true
    · left
      rw [if_neg (by simp [ha])]
      rw [hmsg]
    · right
      exact eq_false_of_ne_true ha
  · intro packager req msg hmsg ha
    unfold Server.handleDocImpl
    rw [if_neg (by simp [ha])]
    rw [hmsg]
    exact ⟨rfl, rfl⟩

end WebPackager

namespace WebPackager

/-- Witness for C7: a concrete https URL with dot segments and special query
characters is accepted with cleaned path and escaped query (ampersand and
equals kept verbatim), and a concrete http URL is rejected with a 400 reply
without invoking the packager. -/
theorem C7_parse_sign_url_witness :
    Server.parseSignURL "https://example.com/a/../b//c?id=42&x=<1>"
        (some { scheme := "https", hasUser := false, host := "example.com",
                path := "/a/../b//c", rawQuery := "id=42&x=<1>",
                fragment := "" }) =
      .ok { scheme := "https", hasUser := false, host := "example.com",
            path := "/b/c", rawQuery := "id=42&x=%3C1%3E", fragment := "" } ∧
    Server.statusOfReply
        (Server.handleDocImpl (fun _ => { resource := none, err := none })
          { acceptValues := ["application/signed-exchange;v=b3"],
            signURL := "http://example.com/",
            signURLParsed := some
              { scheme := "http", hasUser := false, host := "example.com",
                path := "/", rawQuery := "", fragment := "" } }).1 = 400 ∧
      (Server.handleDocImpl (fun _ => { resource := none, err := none })
          { acceptValues := ["application/signed-exchange;v=b3"],
            signURL := "http://example.com/",
            signURLParsed := some
              { scheme := "http", hasUser := false, host := "example.com",
                path := "/", rawQuery := "", fragment := "" } }).2 = false :=
  ⟨C7_parse_sign_url.2.1 "https://example.com/a/../b//c?id=42&x=<1>"
      { scheme := "https", hasUser := false, host := "example.com",
        path := "/a/../b//c", rawQuery := "id=42&x=<1>", fragment := "" }
      (by decide) rfl rfl rfl,
   C7_parse_sign_url.2.2.2.2 (fun _ => { resource := none, err := none })
      { acceptValues := ["application/signed-exchange;v=b3"],
        signURL := "http://example.com/",
        signURLParsed := some
          { scheme := "http", hasUser := false, host := "example.com",
            path := "/", rawQuery := "", fragment := "" } }
      "must start with https://" rfl rfl⟩

/-- C8: Rejection of the unimplemented validity-file tier — building the
resource cache from flags fails exactly when the validity-directory option
is non-empty, and succeeds when it is empty. -/
theorem C8_validity_dir_rejected (sxgExt sxgDir validityDir : String) :
    ((∃ msg, Flags.getResourceCacheFromFlags sxgExt sxgDir validityDir =
        .error msg) ↔ validityDir ≠ "") ∧
    (validityDir = "" →
      ∃ c, Flags.getResourceCacheFromFlags sxgExt sxgDir validityDir =
        .ok c) := by
  unfold Flags.getResourceCacheFromFlags
  by_cases h : validityDir = ""
  · subst h
    simp
  · simp [h]

/-- Witness for C8: a configuration with validity_dir set is rejected, and
one with it empty yields a cache. -/
theorem C8_validity_dir_rejected_witness :
    (∃ msg, Flags.getResourceCacheFromFlags ".sxg" "sxg/" "validity/" =
      .error msg) ∧
    (∃ c, Flags.getResourceCacheFromFlags ".sxg" "sxg/" "" = .ok c) :=
  ⟨(C8_validity_dir_rejected ".sxg" "sxg/" "validity/").1.mpr (by decide),
   (C8_validity_dir_rejected ".sxg" "sxg/" "").2 rfl⟩

/-- C9: Duration flag positivity — parseDuration rejects a non-positive
parsed duration with "duration must be positive" and one above the bound
with "duration too large", returns the duration unchanged otherwise, rejects
an unparseable string, and in particular rejects a configured value of 0
even though it satisfies the maximum-only constraint. -/
theorem C9_parse_duration_positivity (max : Int) :
    (∀ v, v ≤ 0 →
      Flags.parseDuration (some v) max = .error "duration must be positive") ∧
    (∀ v, 0 < v → max < v →
      Flags.parseDuration (some v) max = .error "duration too large") ∧
    (∀ v, 0 < v → v ≤ max → Flags.parseDuration (some v) max = .ok v) ∧
    (∃ msg, Flags.parseDuration none max = .error msg) ∧
    Flags.parseDuration (some 0) max = .error "duration must be positive" := by
  refine ⟨?_, ?_, ?_, ⟨"invalid duration string", rfl⟩, ?_⟩
  · intro v hv
    simp [Flags.parseDuration, hv]
  · intro v hv1 hv2
    simp only [Flags.parseDuration]
    rw [if_neg (by omega), if_pos hv2]
  · intro v hv1 hv2
    simp only [Flags.parseDuration]
    rw [if_neg (by omega), if_neg (by omega)]
  · simp [Flags.parseDuration]

/-- Witness for C9 at the maximum expiry bound: a negative duration, an
oversized duration, the in-range default of 72h, and the zero duration. -/
theorem C9_parse_duration_positivity_witness :
    Flags.parseDuration (some (-5)) Flags.maxExpiry =
      .error "duration must be positive" ∧
    Flags.parseDuration (some 700000000000000) Flags.maxExpiry =
      .error "duration too large" ∧
    Flags.parseDuration (some 259200000000000) Flags.maxExpiry =
      .ok 259200000000000 ∧
    Flags.parseDuration (some 0) Flags.maxExpiry =
      .error "duration must be positive" :=
  ⟨(C9_parse_duration_positivity Flags.maxExpiry).1 (-5) (by decide),
   (C9_parse_duration_positivity Flags.maxExpiry).2.1 700000000000000
     (by decide) (by decide),
   (C9_parse_duration_positivity Flags.maxExpiry).2.2.1 259200000000000
     (by decide) (by decide),
   (C9_parse_duration_positivity Flags.maxExpiry).2.2.2.2⟩

/-- C10: Empty sign URL — when the doc request's sign parameter is missing
or empty, parseSignURL of the empty string fails with "must be non-empty"
and the handler replies with a 400 client error without invoking the
packager. -/
theorem C10_empty_sign_url
    (packager : Server.GoURL → Server.PackOutcome)
    (parse : String → Option Server.GoURL) (signParam : String)
    (acceptValues : List String) (query : List (String × String))
    (h : Server.queryGet query signParam = "") :
    Server.parseSignURL "" (parse "") = .error "must be non-empty" ∧
    Server.handleDoc packager parse signParam acceptValues query =
      (.clientError, false) ∧
    Server.statusOfReply
        (Server.handleDoc packager parse signParam acceptValues query).1 =
      400 := by
  have hparse : ∀ o, Server.parseSignURL "" o = .error "must be non-empty" :=
    fun o => rfl
  have hmain : Server.handleDoc packager parse signParam acceptValues query =
      (.clientError, false) := by
    unfold Server.handleDoc
    rw [h]
    unfold Server.handleDocImpl
    by_cases ha : Server.verifyAcceptHeader acceptValues = true
    · rw [if_neg (by simp [ha])]
      rw [hparse (parse "")]
    · rw [if_pos (by simp [eq_false_of_ne_true ha])]
  exact ⟨hparse (parse ""), hmain, by rw [hmain]; rfl⟩

/-- Witness for C10: a request whose query lacks the sign parameter is
answered 400 with the packager never invoked. -/
theorem C10_empty_sign_url_witness :
    Server.parseSignURL "" ((fun _ => none) "") =
      .error "must be non-empty" ∧
    Server.handleDoc (fun _ => { resource := none, err := none })
        (fun _ => none) "sign" ["application/signed-exchange;v=b3"] [] =
      (.clientError, false) ∧
    Server.statusOfReply
        (Server.handleDoc (fun _ => { resource := none, err := none })
          (fun _ => none) "sign" ["application/signed-exchange;v=b3"] []).1 =
      400 :=
  C10_empty_sign_url (fun _ => { resource := none, err := none })
    (fun _ => none) "sign" ["application/signed-exchange;v=b3"] [] rfl

end WebPackager
